import Mathlib

/-!
Verification of the pushover-to-gotify bridge client (src/Client.ts).

The TypeScript class `Client` is shallowly embedded below. Pure helpers
(`gotifyPriority`, the icon-name resolution) become Lean functions on `Int`
and `String`. Stateful methods become explicit state-passing functions:
`updateHead` acts on the in-memory cursor `lastMessageId`, `handleMessages`
folds over the fetched batch exactly as the `forEach` body does,
`fetchImage` acts on an abstract filesystem (the finite set of cached icon
files), and the timer bookkeeping of `resetKeepAlive` and `reconnect` acts
on a state recording the timer handles the class stores and the timers the
runtime actually has pending. HTTP outcomes are passed in as explicit
parameters, since the code only branches on success versus failure.
-/

namespace P2G

/-- Message record delivered by the origin provider, from the interface
`IPushoverMessage` (src/Client.ts lines 8-19). JS numbers here hold
integers, so fields are modelled as `Int`. -/
structure IPushoverMessage where
  id : Int
  title : String
  message : String
  app : String
  aid : Int
  icon : String
  date : Int
  priority : Int
  acked : Int
  umid : Int
deriving DecidableEq

/-- Batch-test helper: a message with the given id, application id and icon
field, all remaining fields zeroed. -/
def mkMsg (id aid : Int) (icon : String) : IPushoverMessage :=
  ⟨id, "", "", "", aid, icon, 0, 0, 0, 0⟩

/-- Initial value of the field `lastMessageId` (src/Client.ts line 41:
`private lastMessageId: number = 0`). -/
def initialLastMessageId : Int := 0

/-- Outcome of one HTTPS request, as far as the code distinguishes:
status 200, a non-200 status (the response body still arrives), or a
request-level network error (no response at all). -/
inductive HttpOutcome where
  | ok
  | httpError
  | networkError
deriving DecidableEq

/-- Priority translation, from `gotifyPriority` (src/Client.ts lines
233-246): a `switch` on the origin priority with a `default` arm. -/
def gotifyPriority (pushoverPriority : Int) : Int :=
  match pushoverPriority with
  | -2 => 1
  | -1 => 3
  | 0 => 5
  | 1 => 10
  | _ => 5

/-- Result of one `updateHead` call: the value of `lastMessageId` after the
call resolves, and whether the acknowledgment POST was issued at all. -/
structure UpdateHeadResult where
  cursor : Int
  requestIssued : Bool
deriving DecidableEq

/-- Embedding of `updateHead` (src/Client.ts lines 248-295). The guard at
line 250 resolves immediately, with no request and no state change, when no
message is given or its id is at most `lastMessageId`. Otherwise line 255
assigns `this.lastMessageId = message.id` BEFORE the POST is issued, and
neither the non-200 branch (line 272) nor the request-error handler (line
282) restores the prior value, so the resulting cursor is `m.id` whatever
the acknowledgment outcome is: the parameter is deliberately unused,
mirroring the code. -/
def updateHead (lastMessageId : Int) (message : Option IPushoverMessage)
    (_ackSucceeds : Bool) : UpdateHeadResult :=
  match message with
  | none => ⟨lastMessageId, false⟩
  | some m =>
    if m.id ≤ lastMessageId then ⟨lastMessageId, false⟩
    else ⟨m.id, true⟩

/-- Cursor value after a whole sequence of `updateHead` calls, each call
given as the optional message argument together with the acknowledgment
outcome. Used to state lifetime monotonicity of the cursor. -/
def runUpdates (c : Int) (calls : List (Option IPushoverMessage × Bool)) : Int :=
  calls.foldl (fun cur call => (updateHead cur call.1 call.2).cursor) c

/-- Icon-name resolution from the `handleMessages` body (src/Client.ts
lines 177-179): `message.icon ? message.icon : (message.aid === 1 ?
'pushover.png' : 'default.png')`. The JS truthiness test on the string
field is false exactly for the empty (or absent) string. -/
def iconResolve (m : IPushoverMessage) : String :=
  if m.icon = "" then (if m.aid = 1 then "pushover.png" else "default.png")
  else m.icon

/-- The `lastMessage` accumulator step of `handleMessages` (src/Client.ts
lines 173-175): `if (!lastMessage || lastMessage.id < message.id)
lastMessage = message`. -/
def maxStep (lastMessage : Option IPushoverMessage) (m : IPushoverMessage) :
    Option IPushoverMessage :=
  match lastMessage with
  | none => some m
  | some l => if l.id < m.id then some m else some l

/-- Observable outcome of `handleMessages`: the messages forwarded to the
destination, paired with the icon name each was forwarded with, and the
`lastMessage` value handed (exactly once, at line 186) to `updateHead`. -/
structure HandleResult where
  forwarded : List (IPushoverMessage × String)
  headArg : Option IPushoverMessage
deriving DecidableEq

/-- One iteration of the `messages.forEach` body of `handleMessages`
(src/Client.ts lines 172-185): update the `lastMessage` maximum, and when
`message.id > this.lastMessageId` resolve the icon and forward the
message. The id comparison reads the cursor as it was on entry to the
batch: every comparison runs synchronously before `updateHead` mutates the
field. -/
def handleStep (lastMessageId : Int) (acc : HandleResult)
    (m : IPushoverMessage) : HandleResult :=
  { forwarded :=
      if lastMessageId < m.id then acc.forwarded ++ [(m, iconResolve m)]
      else acc.forwarded
    headArg := maxStep acc.headArg m }

/-- Embedding of `handleMessages` (src/Client.ts lines 170-187): fold the
`forEach` body over the batch, starting from no forwarded messages and
`lastMessage = undefined`. -/
def handleMessages (lastMessageId : Int) (messages : List IPushoverMessage) :
    HandleResult :=
  messages.foldl (handleStep lastMessageId) ⟨[], none⟩

/-- The batch of spec section 8: ids [5, 3, 9, 1]. -/
def exampleBatch : List IPushoverMessage :=
  [mkMsg 5 2 "", mkMsg 3 2 "", mkMsg 9 2 "", mkMsg 1 2 ""]

/-- Abstract filesystem for the icon cache: the set of file paths that
exist, as a list. -/
abbrev FileSystem : Type := List String

/-- Path.join of the cache directory and the icon file name (src/Client.ts
line 302), modelled as concatenation with the separator. -/
def pathJoin (dir name : String) : String := dir ++ "/" ++ name

/-- The `fileExists` helper (src/Client.ts line 6): whether a stat on the
path succeeds, modelled as membership in the abstract filesystem. -/
def fileExists (fs : FileSystem) (path : String) : Bool :=
  decide (path ∈ fs)

/-- Result of one `fetchImage` call: the value the promise resolves with,
the filesystem afterwards, whether the icon request was issued to the icon
host, and whether the filesystem was consulted at all. -/
structure FetchImageResult where
  result : Option String
  fs : FileSystem
  downloaded : Bool
  fsChecked : Bool
deriving DecidableEq

/-- Embedding of `fetchImage` (src/Client.ts lines 297-343). With no cache
directory configured (`!this.settings.imageCache`, true for an absent or
empty string) it returns null at once, touching neither filesystem nor
network. Otherwise it checks the cache file; on a hit it returns the path
with no download. On a miss it issues the GET: on status 200 the response
is piped into the file and the path is returned; on a non-200 status the
write stream was still created (line 318 pipes before the status check) so
the file appears, but null is returned; on a request-level error no
response ever arrives, no file is created, and null is returned. -/
def fetchImage (imageCache : Option String) (imageName : String)
    (fs : FileSystem) (download : HttpOutcome) : FetchImageResult :=
  if imageCache.getD "" = "" then ⟨none, fs, false, false⟩
  else
    let imageFile := pathJoin (imageCache.getD "") imageName
    if fileExists fs imageFile then ⟨some imageFile, fs, false, true⟩
    else
      match download with
      | .ok => ⟨some imageFile, imageFile :: fs, true, true⟩
      | .httpError => ⟨none, imageFile :: fs, true, true⟩
      | .networkError => ⟨none, fs, true, true⟩

/-- Effects of the websocket `message` handler on one text frame: the lines
logged, whether a message refresh was started, whether the keep-alive timer
was rearmed, and whether a reconnect was forced. -/
structure WsMessageEffect where
  logs : List String
  refreshed : Bool
  keepAliveRearmed : Bool
  reconnected : Bool
deriving DecidableEq

/-- Embedding of the `message` listener (src/Client.ts lines 69-83): the
frame `"!"` logs and refreshes messages, the frame `"#"` rearms the
keep-alive timer, and every other frame logs it and reconnects. The
function is total, so no frame can crash the handler. -/
def onWsMessage (message : String) : WsMessageEffect :=
  if message = "!" then ⟨["Got new message event"], true, false, false⟩
  else if message = "#" then ⟨[], false, true, false⟩
  else ⟨["Unknown message: " ++ message], false, false, true⟩

/-- The socket-facing state of the `Client` class: whether a websocket
client object is present (`this.wsClient`), the session-start timestamp
(`this.lastConnection`) and the cursor. -/
structure ClientState where
  wsClient : Bool
  lastConnection : Option Int
  lastMessageId : Int
deriving DecidableEq

/-- Embedding of the entry of `connect` (src/Client.ts lines 54-60): if
`this.wsClient` is set the method returns at once; otherwise it creates the
websocket client and records `this.lastConnection = Date.now()`. The
second component reports whether a new connection was opened. -/
def connect (s : ClientState) (now : Int) : ClientState × Bool :=
  if s.wsClient then (s, false)
  else ({ s with wsClient := true, lastConnection := some now }, true)

/-- Delay argument handed to `setTimeout` when scheduling the fresh
`connect` (src/Client.ts line 118): `this.settings.keepAliveTimeout -
(Date.now() - this.lastConnection)`, with no clamping. -/
def reconnectDelay (keepAliveTimeout now lastConnection : Int) : Int :=
  keepAliveTimeout - (now - lastConnection)

/-- Timer bookkeeping state: the handles the class stores in
`this.keepAlive` and `this.retry`, the runtime pending-timer lists of
each kind (as handle lists), and a fresh-handle counter. -/
structure TimerState where
  keepAlive : Option Nat
  retry : Option Nat
  pendingKeepAlive : List Nat
  pendingRetry : List Nat
  fresh : Nat
deriving DecidableEq

/-- `clearTimeout(handle)`: remove that handle from the pending list if it
is there; clearing an undefined or already-fired handle is a no-op. -/
def clearTimeoutOn (handle : Option Nat) (pending : List Nat) : List Nat :=
  match handle with
  | none => pending
  | some h => pending.erase h

/-- Timer effect of `resetKeepAlive` (src/Client.ts lines 97-104):
`clearTimeout(this.keepAlive)` and then `this.keepAlive = setTimeout(...)`,
arming a fresh keep-alive timer. -/
def resetKeepAlive (s : TimerState) : TimerState :=
  { s with
    pendingKeepAlive := clearTimeoutOn s.keepAlive s.pendingKeepAlive ++ [s.fresh]
    keepAlive := some s.fresh
    fresh := s.fresh + 1 }

/-- Timer effect of `reconnect` (src/Client.ts lines 106-119):
`clearTimeout(this.keepAlive)` and then `this.retry = setTimeout(...)`.
The pending keep-alive timer is cancelled, but no `clearTimeout(this.retry)`
precedes the arming: the stored retry handle is overwritten and a prior
pending retry timer stays pending. -/
def reconnect (s : TimerState) : TimerState :=
  { s with
    pendingKeepAlive := clearTimeoutOn s.keepAlive s.pendingKeepAlive
    pendingRetry := s.pendingRetry ++ [s.fresh]
    retry := some s.fresh
    fresh := s.fresh + 1 }

/-- Timer state at process start: no handles stored, nothing pending. -/
def initTimerState : TimerState := ⟨none, none, [], [], 0⟩

/-- Keep-alive handle discipline: the pending keep-alive timers are at most
the one whose handle the class currently stores. It holds at start and,
as proved below, is preserved by `resetKeepAlive` and `reconnect`. -/
def kaConsistent (s : TimerState) : Prop :=
  s.pendingKeepAlive = [] ∨
    ∃ h, s.keepAlive = some h ∧ s.pendingKeepAlive = [h]

/-! Helper lemmas about the `handleMessages` fold. -/

theorem handle_forwarded_aux (c : Int) (msgs : List IPushoverMessage) :
    ∀ acc : HandleResult,
      (msgs.foldl (handleStep c) acc).forwarded
        = acc.forwarded
          ++ (msgs.filter fun m => decide (c < m.id)).map
              (fun m => (m, iconResolve m)) := by
  induction msgs with
  | nil => intro acc; simp
  | cons m ms ih =>
    intro acc
    rw [List.foldl_cons, ih]
    by_cases h : c < m.id
    · simp [handleStep, h, List.filter_cons]
    · simp [handleStep, h, List.filter_cons]

theorem handle_headArg_aux (c : Int) (msgs : List IPushoverMessage) :
    ∀ acc : HandleResult,
      (msgs.foldl (handleStep c) acc).headArg
        = msgs.foldl maxStep acc.headArg := by
  induction msgs with
  | nil => intro acc; rfl
  | cons m ms ih =>
    intro acc
    rw [List.foldl_cons, List.foldl_cons, ih]
    rfl

theorem maxFold_spec (ms : List IPushoverMessage) :
    ∀ a : IPushoverMessage,
      ∃ l, ms.foldl maxStep (some a) = some l
        ∧ (l = a ∨ l ∈ ms) ∧ a.id ≤ l.id ∧ ∀ m ∈ ms, m.id ≤ l.id := by
  induction ms with
  | nil =>
    intro a
    exact ⟨a, rfl, Or.inl rfl, le_refl _, by simp⟩
  | cons m ms ih =>
    intro a
    rw [List.foldl_cons]
    by_cases h : a.id < m.id
    · have hm : maxStep (some a) m = some m := by simp [maxStep, h]
      rw [hm]
      obtain ⟨l, h1, h2, h3, h4⟩ := ih m
      refine ⟨l, h1, ?_, le_of_lt (lt_of_lt_of_le h h3), ?_⟩
      · rcases h2 with h2 | h2
        · exact Or.inr (by simp [h2])
        · exact Or.inr (List.mem_cons_of_mem _ h2)
      · intro x hx
        rcases List.mem_cons.mp hx with hx | hx
        · rw [hx]; exact h3
        · exact h4 x hx
    · have hm : maxStep (some a) m = some a := by simp [maxStep, h]
      rw [hm]
      obtain ⟨l, h1, h2, h3, h4⟩ := ih a
      refine ⟨l, h1, ?_, h3, ?_⟩
      · rcases h2 with h2 | h2
        · exact Or.inl h2
        · exact Or.inr (List.mem_cons_of_mem _ h2)
      · intro x hx
        rcases List.mem_cons.mp hx with hx | hx
        · rw [hx]; exact le_trans (Int.not_lt.mp h) h3
        · exact h4 x hx

theorem updateHead_mono (c : Int) (msg : Option IPushoverMessage)
    (ack : Bool) : c ≤ (updateHead c msg ack).cursor := by
  cases msg with
  | none => exact le_refl _
  | some m =>
    by_cases h : m.id ≤ c
    · simp [updateHead, h]
    · simp [updateHead, h]
      exact le_of_lt (Int.not_le.mp h)

theorem runUpdates_mono (calls : List (Option IPushoverMessage × Bool)) :
    ∀ c : Int, c ≤ runUpdates c calls := by
  induction calls with
  | nil => intro c; exact le_refl _
  | cons x xs ih =>
    intro c
    exact le_trans (updateHead_mono c x.1 x.2) (ih _)

/-- C1: the claim says the in-memory cursor advances only after the
acknowledgment POST succeeds and stays at its prior value when the call
fails. The code instead assigns `lastMessageId` before issuing the POST
(src/Client.ts line 255) and never restores it: evaluated at prior cursor
4 and message id 9, a failed acknowledgment still leaves the cursor at 9,
and indeed the resulting cursor is 9 for every acknowledgment outcome. -/
theorem C1_cursor_advances_despite_failed_ack :
    (updateHead 4 (some (mkMsg 9 1 "")) false).cursor = 9
    ∧ (updateHead 4 (some (mkMsg 9 1 "")) false).requestIssued = true
    ∧ ∀ ack : Bool, (updateHead 4 (some (mkMsg 9 1 "")) ack).cursor = 9 := by
  refine ⟨by decide, by decide, ?_⟩
  intro ack
  cases ack <;> decide

/-- C2: for every batch and cursor value c, the dispatcher forwards
exactly the messages with id strictly above c, in batch order, and the
single `updateHead` invocation (line 186) receives a message of the batch
whose id bounds every id in the batch; on the batch with ids [5, 3, 9, 1]
and cursor 4 the forwarded ids are exactly [5, 9] and the updater argument
has id 9. -/
theorem C2_dispatch_filter_and_max :
    (∀ c msgs, (handleMessages c msgs).forwarded.map Prod.fst
        = msgs.filter fun m => decide (c < m.id))
    ∧ (∀ c msgs, msgs ≠ [] →
        ∃ l, (handleMessages c msgs).headArg = some l
          ∧ l ∈ msgs ∧ ∀ m ∈ msgs, m.id ≤ l.id)
    ∧ (handleMessages 4 exampleBatch).forwarded.map (fun p => p.1.id) = [5, 9]
    ∧ (handleMessages 4 exampleBatch).headArg.map (fun m => m.id) = some 9 := by
  refine ⟨?_, ?_, by decide, by decide⟩
  · intro c msgs
    rw [handleMessages, handle_forwarded_aux c msgs ⟨[], none⟩]
    simp [List.map_map, Function.comp_def]
  · intro c msgs hne
    cases msgs with
    | nil => exact absurd rfl hne
    | cons m ms =>
      rw [handleMessages, handle_headArg_aux c (m :: ms) ⟨[], none⟩,
        List.foldl_cons]
      have hstep : maxStep (⟨([] : List (IPushoverMessage × String)),
          (none : Option IPushoverMessage)⟩ : HandleResult).headArg m
          = some m := rfl
      rw [hstep]
      obtain ⟨l, h1, h2, h3, h4⟩ := maxFold_spec ms m
      refine ⟨l, h1, ?_, ?_⟩
      · rcases h2 with h2 | h2
        · exact h2 ▸ List.mem_cons_self m ms
        · exact List.mem_cons_of_mem _ h2
      · intro x hx
        rcases List.mem_cons.mp hx with hx | hx
        · rw [hx]; exact h3
        · exact h4 x hx

/-- C2 witness: the maximal-id property applied to the concrete batch with
ids [5, 3, 9, 1]. -/
theorem C2_witness :
    ∃ l, (handleMessages 4 exampleBatch).headArg = some l
      ∧ l ∈ exampleBatch ∧ ∀ m ∈ exampleBatch, m.id ≤ l.id :=
  C2_dispatch_filter_and_max.2.1 4 exampleBatch (by decide)

/-- C3: `updateHead` is a no-op, issuing no request and changing no state,
when its argument is absent or has id at most the current cursor; every
call leaves the cursor at least at its prior value, so along any sequence
of calls the cursor is monotonically non-decreasing from its initial
value 0. -/
theorem C3_advance_noop_and_monotone :
    (∀ c ack, updateHead c none ack = ⟨c, false⟩)
    ∧ (∀ c (m : IPushoverMessage) ack, m.id ≤ c →
        updateHead c (some m) ack = ⟨c, false⟩)
    ∧ (∀ c msg ack, c ≤ (updateHead c msg ack).cursor)
    ∧ (∀ c calls, c ≤ runUpdates c calls)
    ∧ initialLastMessageId = 0 := by
  refine ⟨fun c ack => rfl, ?_, fun c msg ack => updateHead_mono c msg ack,
    fun c calls => runUpdates_mono calls c, rfl⟩
  intro c m ack h
  simp [updateHead, h]

/-- C3 witness: a message with id 3 against cursor 4 leaves the cursor at
4 with no request issued. -/
theorem C3_witness : updateHead 4 (some (mkMsg 3 1 "")) true = ⟨4, false⟩ :=
  C3_advance_noop_and_monotone.2.1 4 (mkMsg 3 1 "") true (by decide)

/-- C4: the priority translation is total and exact: origin priority -2
maps to 1, -1 to 3, 0 to 5, 1 to 10, and every other integer, 7 included,
maps to 5. -/
theorem C4_priority_total_exact (p : Int) :
    gotifyPriority (-2) = 1 ∧ gotifyPriority (-1) = 3 ∧ gotifyPriority 0 = 5
    ∧ gotifyPriority 1 = 10 ∧ gotifyPriority 7 = 5
    ∧ (p ≠ -2 → p ≠ -1 → p ≠ 0 → p ≠ 1 → gotifyPriority p = 5) := by
  refine ⟨by decide, by decide, by decide, by decide, by decide, ?_⟩
  intro h2 h1 h0 hp
  unfold gotifyPriority
  split <;> simp_all

/-- C4 witness: the out-of-range input 7 maps to 5 through the default
arm. -/
theorem C4_witness : gotifyPriority 7 = 5 :=
  (C4_priority_total_exact 7).2.2.2.2.2 (by decide) (by decide) (by decide)
    (by decide)

/-- C5 counterexample: the delay handed to the timer when a session has
been alive for 70000 ms with a 60000 ms keep-alive timeout is -10000,
which is negative and differs from max(0, keepAliveTimeout - elapsed);
the code (src/Client.ts line 118) applies no clamping. -/
theorem C5_counterexample :
    reconnectDelay 60000 70000 0 < 0
    ∧ reconnectDelay 60000 70000 0 ≠ max 0 (60000 - (70000 - 0)) := by
  decide

/-- C5 amended: the scheduled delay is keepAliveTimeout minus the session
age, unclamped; whenever the session age is at most keepAliveTimeout it
coincides with max(0, keepAliveTimeout - age), a session failing at its
start waits the full keepAliveTimeout, and a session alive exactly
keepAliveTimeout reconnects with delay 0. -/
theorem C5_delay_unclamped (kat now lc : Int) :
    (now - lc ≤ kat → reconnectDelay kat now lc = max 0 (kat - (now - lc)))
    ∧ reconnectDelay kat lc lc = kat
    ∧ reconnectDelay kat (lc + kat) lc = 0 := by
  refine ⟨?_, ?_, ?_⟩
  · intro h
    have h0 : 0 ≤ kat - (now - lc) := by omega
    rw [max_eq_right h0]
    rfl
  · simp only [reconnectDelay]
    omega
  · simp only [reconnectDelay]
    omega

/-- C5 witness: a session alive 30000 ms of a 60000 ms timeout reconnects
after the clamped-equal delay of 30000 ms. -/
theorem C5_witness :
    reconnectDelay 60000 30000 0 = max 0 (60000 - (30000 - 0)) :=
  (C5_delay_unclamped 60000 30000 0).1 (by decide)

/-- C6: with no cache directory configured (absent or empty), `fetchImage`
resolves null touching neither filesystem nor network; with a directory
configured and the icon not yet cached, the first request downloads once
and stores the file at the cache path, and the second request for the same
name is served from that file with no further download. -/
theorem C6_icon_cache (dir name : String) (fs : FileSystem) :
    (∀ n fs2 out, fetchImage none n fs2 out = ⟨none, fs2, false, false⟩)
    ∧ (∀ n fs2 out, fetchImage (some "") n fs2 out = ⟨none, fs2, false, false⟩)
    ∧ (dir ≠ "" → fileExists fs (pathJoin dir name) = false →
        (fetchImage (some dir) name fs .ok).downloaded = true
        ∧ (fetchImage (some dir) name fs .ok).result = some (pathJoin dir name)
        ∧ fetchImage (some dir) name (fetchImage (some dir) name fs .ok).fs .ok
            = ⟨some (pathJoin dir name),
               (fetchImage (some dir) name fs .ok).fs, false, true⟩) := by
  refine ⟨fun n fs2 out => rfl, fun n fs2 out => rfl, ?_⟩
  intro hdir hmiss
  have h1 : fetchImage (some dir) name fs .ok
      = ⟨some (pathJoin dir name), pathJoin dir name :: fs, true, true⟩ := by
    simp [fetchImage, hdir, hmiss]
  refine ⟨by rw [h1], by rw [h1], ?_⟩
  rw [h1]
  simp [fetchImage, hdir, fileExists]

/-- C6 witness: caching pushover.png into an empty cache directory named
cache downloads once and then serves the second request locally. -/
theorem C6_witness :
    (fetchImage (some "cache") "pushover.png" [] .ok).downloaded = true
    ∧ (fetchImage (some "cache") "pushover.png" [] .ok).result
        = some (pathJoin "cache" "pushover.png")
    ∧ fetchImage (some "cache") "pushover.png"
          (fetchImage (some "cache") "pushover.png" [] .ok).fs .ok
        = ⟨some (pathJoin "cache" "pushover.png"),
           (fetchImage (some "cache") "pushover.png" [] .ok).fs, false, true⟩ :=
  (C6_icon_cache "cache" "pushover.png" []).2.2 (by decide) (by decide)

/-- C7: every frame other than the bang and hash frames is logged and
forces a reconnect, the bang frame refreshes messages without
reconnecting, and the hash frame rearms the keep-alive timer without
reconnecting; the handler is a total function, so no frame crashes it. -/
theorem C7_unknown_frame_reconnects (m : String) :
    (m ≠ "!" → m ≠ "#" →
        onWsMessage m = ⟨["Unknown message: " ++ m], false, false, true⟩)
    ∧ (onWsMessage "!").refreshed = true
    ∧ (onWsMessage "!").reconnected = false
    ∧ (onWsMessage "#").keepAliveRearmed = true
    ∧ (onWsMessage "#").reconnected = false := by
  refine ⟨?_, by decide, by decide, by decide, by decide⟩
  intro h1 h2
  simp [onWsMessage, h1, h2]

/-- C7 witness: the unrecognized frame consisting of a question mark is
logged and triggers a reconnect. -/
theorem C7_witness :
    onWsMessage "?" = ⟨["Unknown message: " ++ "?"], false, false, true⟩ :=
  (C7_unknown_frame_reconnects "?").1 (by decide) (by decide)

/-- C8: `connect` is idempotent: whenever a websocket client is already
present, the call returns at once, leaves the whole client state
unchanged, and opens no new connection. -/
theorem C8_connect_idempotent (s : ClientState) (now : Int) :
    s.wsClient = true → connect s now = (s, false) := by
  intro h
  simp [connect, h]

/-- C8 witness: a client with an active session is untouched by a further
connect call. -/
theorem C8_witness :
    connect ⟨true, some 0, 7⟩ 5 = (⟨true, some 0, 7⟩, false) :=
  C8_connect_idempotent ⟨true, some 0, 7⟩ 5 rfl

/-- C9 counterexample: two consecutive `reconnect` calls from the initial
timer state leave two pending reconnect timers, refuting that every
operation arming a reconnect timer first cancels a prior pending one: the
code (src/Client.ts line 115) overwrites the stored retry handle without a
clearTimeout. -/
theorem C9_counterexample :
    ¬ (reconnect (reconnect initTimerState)).pendingRetry.length ≤ 1 := by
  decide

/-- C9 amended: arming a keep-alive timer always cancels the prior pending
one, so at most one keep-alive timer is ever pending and the handle
discipline is preserved by both `resetKeepAlive` and `reconnect`; but
`reconnect` appends a new pending reconnect timer without cancelling any
prior one, growing the pending reconnect list by exactly one. -/
theorem C9_keepalive_single_retry_accumulates (s : TimerState)
    (hs : kaConsistent s) :
    (resetKeepAlive s).pendingKeepAlive = [s.fresh]
    ∧ kaConsistent (resetKeepAlive s)
    ∧ (resetKeepAlive s).pendingKeepAlive.length ≤ 1
    ∧ (reconnect s).pendingKeepAlive = []
    ∧ kaConsistent (reconnect s)
    ∧ (reconnect s).pendingRetry = s.pendingRetry ++ [s.fresh]
    ∧ (reconnect s).pendingRetry.length = s.pendingRetry.length + 1 := by
  have hclear : clearTimeoutOn s.keepAlive s.pendingKeepAlive = [] := by
    rcases hs with h | ⟨h, hh, hp⟩
    · cases hka : s.keepAlive <;> simp [clearTimeoutOn, h]
    · simp [clearTimeoutOn, hh, hp]
  refine ⟨?_, ?_, ?_, ?_, ?_, rfl, ?_⟩
  · simp [resetKeepAlive, hclear]
  · exact Or.inr ⟨s.fresh, rfl, by simp [resetKeepAlive, hclear]⟩
  · simp [resetKeepAlive, hclear]
  · simp [reconnect, hclear]
  · exact Or.inl (by simp [reconnect, hclear])
  · simp [reconnect]

/-- C9 witness: from the initial timer state, one reconnect call appends
one pending reconnect timer. -/
theorem C9_witness :
    (reconnect initTimerState).pendingRetry
      = initTimerState.pendingRetry ++ [initTimerState.fresh] :=
  (C9_keepalive_single_retry_accumulates initTimerState (Or.inl rfl)).2.2.2.2.2.1

/-- C10: for a message with empty (or absent) icon field the resolved icon
name is pushover.png exactly when the originating application id is 1 and
default.png otherwise; a non-empty icon field is used verbatim; and every
forwarded message carries exactly the icon name this resolution yields. -/
theorem C10_default_icon (m : IPushoverMessage) :
    (m.icon = "" →
        (iconResolve m = "pushover.png" ↔ m.aid = 1)
        ∧ (m.aid ≠ 1 → iconResolve m = "default.png"))
    ∧ (m.icon ≠ "" → iconResolve m = m.icon)
    ∧ (∀ c msgs p, p ∈ (handleMessages c msgs).forwarded
        → p.2 = iconResolve p.1) := by
  refine ⟨?_, ?_, ?_⟩
  · intro hempty
    refine ⟨⟨?_, ?_⟩, ?_⟩
    · intro hres
      by_contra haid
      have hd : iconResolve m = "default.png" := by
        simp [iconResolve, hempty, haid]
      rw [hd] at hres
      exact absurd hres (by decide)
    · intro haid
      simp [iconResolve, hempty, haid]
    · intro haid
      simp [iconResolve, hempty, haid]
  · intro hne
    simp [iconResolve, hne]
  · intro c msgs p hp
    rw [handleMessages, handle_forwarded_aux c msgs ⟨[], none⟩] at hp
    simp only [List.nil_append, List.mem_map] at hp
    obtain ⟨a, ha, rfl⟩ := hp
    rfl

/-- C10 witness: a message with empty icon field from application id 1
resolves to pushover.png. -/
theorem C10_witness : iconResolve (mkMsg 7 1 "") = "pushover.png" :=
  (((C10_default_icon (mkMsg 7 1 "")).1 rfl).1).mpr rfl

end P2G
